import Mathlib

/-!
Verification of the input tracking core of `bevy_input` (file
`src/crates/bevy_input/src/keyboard.rs`).

The file `keyboard.rs` contains the key-code enumeration `KeyCode`, the event
type `KeyboardInput`, the per-cycle system `keyboard_input_system`, and the
character table `TryInto<char> for KeyCode`.  The generic tracker `Input<T>`
(named `InputState<T>` in the specification, with operations `advance`/`update`,
`press` and `release`) lives in a file that is not part of the reviewed
sources; its operations are modelled here from the specification, as marked on
each definition.
-/

set_option maxHeartbeats 1000000

/-- Embedding of the `KeyCode` enumeration of `keyboard.rs` (lines 39-233). -/
inductive KeyCode where
  | Key1 | Key2 | Key3 | Key4 | Key5 | Key6 | Key7 | Key8 | Key9 | Key0
  | A | B | C | D | E | F | G | H | I | J | K | L | M
  | N | O | P | Q | R | S | T | U | V | W | X | Y | Z
  | Escape
  | F1 | F2 | F3 | F4 | F5 | F6 | F7 | F8 | F9 | F10 | F11 | F12
  | F13 | F14 | F15 | F16 | F17 | F18 | F19 | F20 | F21 | F22 | F23 | F24
  | Snapshot | Scroll | Pause
  | Insert | Home | Delete | End | PageDown | PageUp
  | Left | Up | Right | Down
  | Back | Return | Space
  | Compose | Caret
  | Numlock
  | Numpad0 | Numpad1 | Numpad2 | Numpad3 | Numpad4
  | Numpad5 | Numpad6 | Numpad7 | Numpad8 | Numpad9
  | AbntC1 | AbntC2 | NumpadAdd | Apostrophe | Apps | Asterisk | Plus | At | Ax
  | Backslash | Calculator | Capital | Colon | Comma | Convert
  | NumpadDecimal | NumpadDivide | Equals | Grave | Kana | Kanji
  | LAlt | LBracket | LControl | LShift | LWin | Mail | MediaSelect | MediaStop
  | Minus | NumpadMultiply | Mute | MyComputer | NavigateForward | NavigateBackward
  | NextTrack | NoConvert | NumpadComma | NumpadEnter | NumpadEquals | OEM102
  | Period | PlayPause | Power | PrevTrack | RAlt | RBracket | RControl | RShift
  | RWin | Semicolon | Slash | Sleep | Stop | NumpadSubtract | Sysrq | Tab
  | Underline | Unlabeled | VolumeDown | VolumeUp | Wake | WebBack | WebFavorites
  | WebForward | WebHome | WebRefresh | WebSearch | WebStop | Yen | Copy | Paste | Cut
  deriving DecidableEq

/-- Embedding of `ElementState` (crate root of `bevy_input`): the transition
carried by a raw input event, either a press or a release. -/
inductive ElementState where
  | Pressed
  | Released
  deriving DecidableEq

/-- Embedding of the event struct `KeyboardInput` (`keyboard.rs` lines 8-12).
The `u32` scan code is represented as a natural number; no arithmetic is ever
performed on it. -/
structure KeyboardInput where
  scan_code : Nat
  key_code : Option KeyCode
  state : ElementState
  deriving DecidableEq

/-- Modelled from the spec: the generic tri-set tracker `InputState<T>`
(spec section 3).  The source file defining the corresponding `Input<T>`
struct is not among the reviewed sources; only its caller
`keyboard_input_system` is.  The three hash sets become finite sets. -/
structure InputState (T : Type) where
  pressed : Finset T
  just_pressed : Finset T
  just_released : Finset T
  deriving DecidableEq

/-- The empty tracker state in which the system starts. -/
def InputState.empty {T : Type} : InputState T := ⟨∅, ∅, ∅⟩

/-- Modelled from the spec: `advance()` clears `just_pressed` and
`just_released` and does not touch `pressed` (spec section 4.1; called
`update` in the source of `keyboard_input_system`). -/
def advance {T : Type} (st : InputState T) : InputState T :=
  { st with just_pressed := ∅, just_released := ∅ }

/-- Modelled from the spec: `press(symbol)` inserts the symbol into both
`pressed` and `just_pressed` when it is not already in `pressed`, and is a
no-op otherwise (spec section 4.1). -/
def press {T : Type} [DecidableEq T] (s : T) (st : InputState T) : InputState T :=
  if s ∈ st.pressed then st
  else
    { pressed := insert s st.pressed
      just_pressed := insert s st.just_pressed
      just_released := st.just_released }

/-- Modelled from the spec: `release(symbol)` removes the symbol from
`pressed` (no-op if absent) and unconditionally inserts it into
`just_released` (spec section 4.1). -/
def release {T : Type} [DecidableEq T] (s : T) (st : InputState T) : InputState T :=
  { pressed := st.pressed.erase s
    just_pressed := st.just_pressed
    just_released := insert s st.just_released }

/-- The body of the event loop of `keyboard_input_system` (`keyboard.rs`
lines 20-32): an event whose `key_code` is `Some` triggers a `press` or
`release` according to its `state`; an event without a key code leaves the
tracker untouched. -/
def systemStep (acc : InputState KeyCode) (e : KeyboardInput) : InputState KeyCode :=
  match e.key_code with
  | some key_code =>
    match e.state with
    | ElementState.Pressed => press key_code acc
    | ElementState.Released => release key_code acc
  | none => acc

/-- Embedding of `keyboard_input_system` (`keyboard.rs` lines 15-33): it
first calls `update` on the tracker (the operation the spec names
`advance`), then folds every incoming event in arrival order through the
loop body `systemStep`.  The drained event queue becomes an explicit list
argument and the `ResMut` tracker becomes explicit state passing. -/
def keyboard_input_system (events : List KeyboardInput)
    (st : InputState KeyCode) : InputState KeyCode :=
  events.foldl systemStep (advance st)

/-- One call into the tracker, for stating which tracker operations a cycle
performs and in which order. -/
inductive TrackerCall where
  | advanceCall
  | pressCall (k : KeyCode)
  | releaseCall (k : KeyCode)
  deriving DecidableEq

/-- Interpret one tracker call on a state. -/
def applyCall (st : InputState KeyCode) : TrackerCall → InputState KeyCode
  | TrackerCall.advanceCall => advance st
  | TrackerCall.pressCall k => press k st
  | TrackerCall.releaseCall k => release k st

/-- Interpret a list of tracker calls from left to right. -/
def runCalls (st : InputState KeyCode) (cs : List TrackerCall) : InputState KeyCode :=
  cs.foldl applyCall st

/-- The fields of an event that `keyboard_input_system` reads: its optional
key code and its transition.  The scan code is not part of the observation. -/
def observed (e : KeyboardInput) : Option KeyCode × ElementState :=
  (e.key_code, e.state)

/-- The tracker call that one observed event gives rise to, per the spec of
`apply_cycle` (section 4.2): `press` for a `Pressed` transition on a present
symbol, `release` for a `Released` one, and no call when the symbol is
absent. -/
def obsCall : Option KeyCode × ElementState → Option TrackerCall
  | (some k, ElementState.Pressed) => some (TrackerCall.pressCall k)
  | (some k, ElementState.Released) => some (TrackerCall.releaseCall k)
  | (none, _) => none

/-- The tracker calls an event batch gives rise to, in arrival order. -/
def eventCalls (events : List KeyboardInput) : List TrackerCall :=
  events.filterMap (fun e => obsCall (observed e))

/-- A tracker state is reachable when some sequence of `advance`, `press`
and `release` calls produces it from the empty initial state. -/
def Reachable (st : InputState KeyCode) : Prop :=
  ∃ cs : List TrackerCall, runCalls InputState.empty cs = st

/-- Embedding of `TryInto<char> for KeyCode` (`keyboard.rs` lines 235-294);
`Ok(c)` becomes `some c` and `Err(())` becomes `none`.  The apostrophe and
backtick characters are written via their code points 39 and 96. -/
def try_into_char : KeyCode → Option Char
  | KeyCode.Key1 | KeyCode.Numpad1 => some '1'
  | KeyCode.Key2 | KeyCode.Numpad2 => some '2'
  | KeyCode.Key3 | KeyCode.Numpad3 => some '3'
  | KeyCode.Key4 | KeyCode.Numpad4 => some '4'
  | KeyCode.Key5 | KeyCode.Numpad5 => some '5'
  | KeyCode.Key6 | KeyCode.Numpad6 => some '6'
  | KeyCode.Key7 | KeyCode.Numpad7 => some '7'
  | KeyCode.Key8 | KeyCode.Numpad8 => some '8'
  | KeyCode.Key9 | KeyCode.Numpad9 => some '9'
  | KeyCode.Key0 | KeyCode.Numpad0 => some '0'
  | KeyCode.A => some 'a'
  | KeyCode.B => some 'b'
  | KeyCode.C => some 'c'
  | KeyCode.D => some 'd'
  | KeyCode.E => some 'e'
  | KeyCode.F => some 'f'
  | KeyCode.G => some 'g'
  | KeyCode.H => some 'h'
  | KeyCode.I => some 'i'
  | KeyCode.J => some 'j'
  | KeyCode.K => some 'k'
  | KeyCode.L => some 'l'
  | KeyCode.M => some 'm'
  | KeyCode.N => some 'n'
  | KeyCode.O => some 'o'
  | KeyCode.P => some 'p'
  | KeyCode.Q => some 'q'
  | KeyCode.R => some 'r'
  | KeyCode.S => some 's'
  | KeyCode.T => some 't'
  | KeyCode.U => some 'u'
  | KeyCode.V => some 'v'
  | KeyCode.W => some 'w'
  | KeyCode.X => some 'x'
  | KeyCode.Y => some 'y'
  | KeyCode.Z => some 'z'
  | KeyCode.Caret => some '^'
  | KeyCode.Apostrophe => some (Char.ofNat 39)
  | KeyCode.Asterisk | KeyCode.NumpadMultiply => some '*'
  | KeyCode.Plus | KeyCode.NumpadAdd => some '+'
  | KeyCode.At => some '@'
  | KeyCode.Backslash => some '\\'
  | KeyCode.Colon => some ':'
  | KeyCode.Comma | KeyCode.NumpadComma => some ','
  | KeyCode.Period | KeyCode.NumpadDecimal => some '.'
  | KeyCode.Slash | KeyCode.NumpadDivide => some '/'
  | KeyCode.Equals | KeyCode.NumpadEquals => some '='
  | KeyCode.Grave => some (Char.ofNat 96)
  | KeyCode.Minus | KeyCode.NumpadSubtract => some '-'
  | KeyCode.Semicolon => some ';'
  | KeyCode.Yen => some '¥'
  | _ => none

/-- The key codes with a printable character representation per the spec
(section 4.3): digits, letters, the listed punctuation, and the numeric-pad
equivalents. -/
def charKeys : List KeyCode :=
  [KeyCode.Key1, KeyCode.Key2, KeyCode.Key3, KeyCode.Key4, KeyCode.Key5,
   KeyCode.Key6, KeyCode.Key7, KeyCode.Key8, KeyCode.Key9, KeyCode.Key0,
   KeyCode.Numpad1, KeyCode.Numpad2, KeyCode.Numpad3, KeyCode.Numpad4,
   KeyCode.Numpad5, KeyCode.Numpad6, KeyCode.Numpad7, KeyCode.Numpad8,
   KeyCode.Numpad9, KeyCode.Numpad0,
   KeyCode.A, KeyCode.B, KeyCode.C, KeyCode.D, KeyCode.E, KeyCode.F,
   KeyCode.G, KeyCode.H, KeyCode.I, KeyCode.J, KeyCode.K, KeyCode.L,
   KeyCode.M, KeyCode.N, KeyCode.O, KeyCode.P, KeyCode.Q, KeyCode.R,
   KeyCode.S, KeyCode.T, KeyCode.U, KeyCode.V, KeyCode.W, KeyCode.X,
   KeyCode.Y, KeyCode.Z,
   KeyCode.Caret, KeyCode.Apostrophe, KeyCode.Asterisk, KeyCode.NumpadMultiply,
   KeyCode.Plus, KeyCode.NumpadAdd, KeyCode.At, KeyCode.Backslash,
   KeyCode.Colon, KeyCode.Comma, KeyCode.NumpadComma, KeyCode.Period,
   KeyCode.NumpadDecimal, KeyCode.Slash, KeyCode.NumpadDivide, KeyCode.Equals,
   KeyCode.NumpadEquals, KeyCode.Grave, KeyCode.Minus, KeyCode.NumpadSubtract,
   KeyCode.Semicolon, KeyCode.Yen]

theorem systemStep_eq_obsCall (acc : InputState KeyCode) (e : KeyboardInput) :
    systemStep acc e = (obsCall (observed e)).elim acc (applyCall acc) := by
  cases hk : e.key_code <;> cases hs : e.state <;>
    simp [systemStep, observed, obsCall, applyCall, hk, hs]

theorem foldl_systemStep_eq_runCalls (events : List KeyboardInput) :
    ∀ s0 : InputState KeyCode,
      events.foldl systemStep s0 = runCalls s0 (eventCalls events) := by
  induction events with
  | nil => intro s0; rfl
  | cons e es ih =>
    intro s0
    have hstep := systemStep_eq_obsCall s0 e
    cases hc : obsCall (observed e) with
    | none =>
      rw [hc] at hstep
      simp only [Option.elim] at hstep
      have hnil : eventCalls (e :: es) = eventCalls es := by
        simp [eventCalls, List.filterMap_cons, hc]
      rw [List.foldl_cons, hstep, hnil]
      exact ih s0
    | some c =>
      rw [hc] at hstep
      simp only [Option.elim] at hstep
      have hcons : eventCalls (e :: es) = c :: eventCalls es := by
        simp [eventCalls, List.filterMap_cons, hc]
      have hrun : runCalls s0 (c :: eventCalls es) = runCalls (applyCall s0 c) (eventCalls es) := rfl
      rw [List.foldl_cons, hstep, hcons, hrun]
      exact ih (applyCall s0 c)

/-- C1: for every event batch and every prior tracker state,
`keyboard_input_system` performs exactly the tracker calls
`advance` (once, first) followed, in arrival order, by one `press` per
`Pressed` event with a present symbol and one `release` per `Released`
event with a present symbol; events with an absent symbol contribute no
tracker call.  The call list never contains a second `advance`. -/
theorem keyboard_input_system_call_sequence (events : List KeyboardInput)
    (st : InputState KeyCode) :
    keyboard_input_system events st
      = runCalls st (TrackerCall.advanceCall :: eventCalls events) ∧
    TrackerCall.advanceCall ∉ eventCalls events := by
  constructor
  · have h1 : runCalls st (TrackerCall.advanceCall :: eventCalls events)
        = runCalls (advance st) (eventCalls events) := rfl
    rw [h1]
    exact foldl_systemStep_eq_runCalls events (advance st)
  · intro hmem
    unfold eventCalls at hmem
    rw [List.mem_filterMap] at hmem
    obtain ⟨e, _, he⟩ := hmem
    cases hk : e.key_code <;> cases hs : e.state <;>
      simp [observed, obsCall, hk, hs] at he

/-- C6: an event batch in which every event carries no key code leaves the
tracker exactly as `advance` alone does: `pressed` is unchanged and the two
transient sets are empty. -/
theorem keyboard_input_system_no_symbol (events : List KeyboardInput)
    (st : InputState KeyCode) (h : ∀ e ∈ events, e.key_code = none) :
    keyboard_input_system events st = advance st ∧
    (keyboard_input_system events st).pressed = st.pressed ∧
    (keyboard_input_system events st).just_pressed = ∅ ∧
    (keyboard_input_system events st).just_released = ∅ := by
  have hcalls : eventCalls events = [] := by
    unfold eventCalls
    rw [List.filterMap_eq_nil_iff]
    intro e he
    have hk := h e he
    simp [observed, obsCall, hk]
  have hmain : keyboard_input_system events st = advance st := by
    unfold keyboard_input_system
    rw [foldl_systemStep_eq_runCalls events (advance st), hcalls]
    rfl
  refine ⟨hmain, ?_, ?_, ?_⟩ <;> rw [hmain] <;> rfl

/-- C6 witness: a concrete batch of one symbol-free event applied to a
concrete nonempty tracker state. -/
theorem keyboard_input_system_no_symbol_witness :
    (∀ e ∈ [KeyboardInput.mk 7 none ElementState.Pressed], e.key_code = none) ∧
    keyboard_input_system [KeyboardInput.mk 7 none ElementState.Pressed]
        (press KeyCode.A InputState.empty)
      = advance (press KeyCode.A InputState.empty) :=
  ⟨by decide,
    (keyboard_input_system_no_symbol _ _ (by decide)).1⟩

/-- C10: the final tracker state depends only on each event's `key_code`
and `state` fields; two batches that agree on those (but may differ in
their scan codes) produce identical final states from every prior state. -/
theorem keyboard_input_system_ignores_scan_code (es1 es2 : List KeyboardInput)
    (st : InputState KeyCode) (h : es1.map observed = es2.map observed) :
    keyboard_input_system es1 st = keyboard_input_system es2 st := by
  have hfac : ∀ es : List KeyboardInput,
      eventCalls es = (es.map observed).filterMap obsCall := by
    intro es
    unfold eventCalls
    rw [List.filterMap_map]
    rfl
  have hcalls : eventCalls es1 = eventCalls es2 := by
    rw [hfac, hfac, h]
  unfold keyboard_input_system
  rw [foldl_systemStep_eq_runCalls, foldl_systemStep_eq_runCalls, hcalls]

/-- C10 witness: two one-event batches differing only in scan code. -/
theorem keyboard_input_system_ignores_scan_code_witness :
    ([KeyboardInput.mk 1 (some KeyCode.A) ElementState.Pressed].map observed
      = [KeyboardInput.mk 2 (some KeyCode.A) ElementState.Pressed].map observed) ∧
    keyboard_input_system [KeyboardInput.mk 1 (some KeyCode.A) ElementState.Pressed]
        InputState.empty
      = keyboard_input_system [KeyboardInput.mk 2 (some KeyCode.A) ElementState.Pressed]
        InputState.empty :=
  ⟨rfl, keyboard_input_system_ignores_scan_code _ _ _ rfl⟩

/-- C2: pressing the same symbol twice without an intervening `advance`
leaves `pressed` and `just_pressed` identical to pressing it once, and a
press of a symbol already in `pressed` changes neither set (it is a full
no-op). -/
theorem press_idempotent {T : Type} [DecidableEq T] (s : T) (st : InputState T) :
    (press s (press s st)).pressed = (press s st).pressed ∧
    (press s (press s st)).just_pressed = (press s st).just_pressed ∧
    (s ∈ st.pressed → press s st = st) := by
  have houter : press s (press s st) = press s st := by
    by_cases h : s ∈ st.pressed <;> simp [press, h]
  exact ⟨by rw [houter], by rw [houter], fun hs => by simp [press, hs]⟩

/-- C2 witness: a concrete double press, with the already-pressed hypothesis
discharged at the state obtained by one press. -/
theorem press_idempotent_witness :
    KeyCode.A ∈ (press KeyCode.A (InputState.empty : InputState KeyCode)).pressed ∧
    press KeyCode.A (press KeyCode.A (InputState.empty : InputState KeyCode))
      = press KeyCode.A (InputState.empty : InputState KeyCode) :=
  ⟨by decide,
    (press_idempotent KeyCode.A (press KeyCode.A InputState.empty)).2.2 (by decide)⟩

/-- C3: after `release s`, the symbol `s` is in `just_released` (whether or
not it was pressed beforehand, since the state `st` is arbitrary) and is not
in `pressed`. -/
theorem release_unconditional_edge {T : Type} [DecidableEq T] (s : T)
    (st : InputState T) :
    s ∈ (release s st).just_released ∧ s ∉ (release s st).pressed := by
  constructor
  · simp [release]
  · simp [release]

/-- C4: `advance` empties both transient sets and leaves `pressed` exactly
as it was immediately before the call. -/
theorem advance_clears_transients {T : Type} (st : InputState T) :
    (advance st).just_pressed = ∅ ∧ (advance st).just_released = ∅ ∧
    (advance st).pressed = st.pressed :=
  ⟨rfl, rfl, rfl⟩

theorem applyCall_inv (st : InputState KeyCode) (c : TrackerCall)
    (h1 : st.just_pressed \ st.just_released ⊆ st.pressed)
    (h2 : st.just_released ∩ st.pressed ⊆ st.just_pressed) :
    (applyCall st c).just_pressed \ (applyCall st c).just_released
        ⊆ (applyCall st c).pressed ∧
    (applyCall st c).just_released ∩ (applyCall st c).pressed
        ⊆ (applyCall st c).just_pressed := by
  cases c with
  | advanceCall =>
    simp [applyCall, advance]
  | pressCall k =>
    by_cases hk : k ∈ st.pressed
    · simpa [applyCall, press, hk] using ⟨h1, h2⟩
    · simp only [applyCall, press, hk, if_false]
      constructor
      · intro x hx
        rw [Finset.mem_sdiff, Finset.mem_insert] at hx
        rw [Finset.mem_insert]
        rcases hx with ⟨hj | hj, hnr⟩
        · exact Or.inl hj
        · exact Or.inr (h1 (Finset.mem_sdiff.mpr ⟨hj, hnr⟩))
      · intro x hx
        rw [Finset.mem_inter, Finset.mem_insert] at hx
        rw [Finset.mem_insert]
        rcases hx with ⟨hjr, hp | hp⟩
        · exact Or.inl hp
        · exact Or.inr (h2 (Finset.mem_inter.mpr ⟨hjr, hp⟩))
  | releaseCall k =>
    simp only [applyCall, release]
    constructor
    · intro x hx
      rw [Finset.mem_sdiff, Finset.mem_insert] at hx
      rw [Finset.mem_erase]
      obtain ⟨hj, hnr⟩ := hx
      push_neg at hnr
      exact ⟨hnr.1, h1 (Finset.mem_sdiff.mpr ⟨hj, hnr.2⟩)⟩
    · intro x hx
      rw [Finset.mem_inter, Finset.mem_insert, Finset.mem_erase] at hx
      obtain ⟨hjr, hne, hp⟩ := hx
      rcases hjr with heq | hjr
      · exact absurd heq hne
      · exact h2 (Finset.mem_inter.mpr ⟨hjr, hp⟩)

theorem runCalls_inv (cs : List TrackerCall) :
    ∀ st : InputState KeyCode,
      (st.just_pressed \ st.just_released ⊆ st.pressed ∧
        st.just_released ∩ st.pressed ⊆ st.just_pressed) →
      ((runCalls st cs).just_pressed \ (runCalls st cs).just_released
          ⊆ (runCalls st cs).pressed ∧
        (runCalls st cs).just_released ∩ (runCalls st cs).pressed
          ⊆ (runCalls st cs).just_pressed) := by
  induction cs with
  | nil => intro st h; exact h
  | cons c cs ih =>
    intro st h
    exact ih (applyCall st c) (applyCall_inv st c h.1 h.2)

/-- C5 counterexample: the claimed invariant fails in reachable states.
Pressing and then releasing `A` within one cycle leaves `A` in
`just_pressed` but not in `pressed`, so `just_pressed ⊆ pressed` fails;
releasing and then pressing `A` within one cycle leaves `A` in both
`just_released` and `pressed`, so their disjointness fails. -/
theorem reachable_invariant_counterexample :
    (Reachable (runCalls InputState.empty
        [TrackerCall.pressCall KeyCode.A, TrackerCall.releaseCall KeyCode.A]) ∧
      ¬ (runCalls InputState.empty
          [TrackerCall.pressCall KeyCode.A, TrackerCall.releaseCall KeyCode.A]).just_pressed
        ⊆ (runCalls InputState.empty
          [TrackerCall.pressCall KeyCode.A, TrackerCall.releaseCall KeyCode.A]).pressed) ∧
    (Reachable (runCalls InputState.empty
        [TrackerCall.releaseCall KeyCode.A, TrackerCall.pressCall KeyCode.A]) ∧
      ¬ Disjoint (runCalls InputState.empty
          [TrackerCall.releaseCall KeyCode.A, TrackerCall.pressCall KeyCode.A]).just_released
        (runCalls InputState.empty
          [TrackerCall.releaseCall KeyCode.A, TrackerCall.pressCall KeyCode.A]).pressed) := by
  refine ⟨⟨⟨_, rfl⟩, ?_⟩, ⟨⟨_, rfl⟩, ?_⟩⟩
  · decide
  · intro hdis
    have hmem : KeyCode.A ∈ (runCalls InputState.empty
        [TrackerCall.releaseCall KeyCode.A, TrackerCall.pressCall KeyCode.A]).just_released := by
      decide
    exact Finset.disjoint_left.mp hdis hmem (by decide)

/-- C5 (amended): in every state reachable from the empty initial state by
`advance`/`press`/`release` calls, every just-pressed symbol that is not
also just-released is still pressed, and every symbol that is both
just-released and pressed is just-pressed.  (The unamended subset and
disjointness statements fail once a symbol is pressed and released, or
released and re-pressed, within one cycle.) -/
theorem reachable_invariant (st : InputState KeyCode) (h : Reachable st) :
    st.just_pressed \ st.just_released ⊆ st.pressed ∧
    st.just_released ∩ st.pressed ⊆ st.just_pressed := by
  obtain ⟨cs, rfl⟩ := h
  refine runCalls_inv cs InputState.empty ⟨?_, ?_⟩ <;> simp [InputState.empty]

/-- C5 witness: the amended invariant evaluated at a concrete reachable
state. -/
theorem reachable_invariant_witness :
    Reachable (runCalls InputState.empty [TrackerCall.pressCall KeyCode.A]) ∧
    ((runCalls InputState.empty [TrackerCall.pressCall KeyCode.A]).just_pressed \
        (runCalls InputState.empty [TrackerCall.pressCall KeyCode.A]).just_released
      ⊆ (runCalls InputState.empty [TrackerCall.pressCall KeyCode.A]).pressed ∧
      (runCalls InputState.empty [TrackerCall.pressCall KeyCode.A]).just_released ∩
        (runCalls InputState.empty [TrackerCall.pressCall KeyCode.A]).pressed
      ⊆ (runCalls InputState.empty [TrackerCall.pressCall KeyCode.A]).just_pressed) :=
  ⟨⟨_, rfl⟩, reachable_invariant _ ⟨_, rfl⟩⟩

/-- C7: for each digit, the main-row key and the numeric-pad key map to the
same digit character (so the character map is not injective), and the two
key codes are distinct symbols. -/
theorem digit_and_numpad_same_char :
    (try_into_char KeyCode.Key0 = some '0' ∧ try_into_char KeyCode.Numpad0 = some '0') ∧
    (try_into_char KeyCode.Key1 = some '1' ∧ try_into_char KeyCode.Numpad1 = some '1') ∧
    (try_into_char KeyCode.Key2 = some '2' ∧ try_into_char KeyCode.Numpad2 = some '2') ∧
    (try_into_char KeyCode.Key3 = some '3' ∧ try_into_char KeyCode.Numpad3 = some '3') ∧
    (try_into_char KeyCode.Key4 = some '4' ∧ try_into_char KeyCode.Numpad4 = some '4') ∧
    (try_into_char KeyCode.Key5 = some '5' ∧ try_into_char KeyCode.Numpad5 = some '5') ∧
    (try_into_char KeyCode.Key6 = some '6' ∧ try_into_char KeyCode.Numpad6 = some '6') ∧
    (try_into_char KeyCode.Key7 = some '7' ∧ try_into_char KeyCode.Numpad7 = some '7') ∧
    (try_into_char KeyCode.Key8 = some '8' ∧ try_into_char KeyCode.Numpad8 = some '8') ∧
    (try_into_char KeyCode.Key9 = some '9' ∧ try_into_char KeyCode.Numpad9 = some '9') ∧
    KeyCode.Key0 ≠ KeyCode.Numpad0 := by
  decide

/-- C8: `try_into_char` is total and returns a character exactly for the
key codes in `charKeys` (digits, letters, the listed punctuation and
numeric-pad equivalents); every other key code, in particular the function
keys, `Escape`, the modifiers and the navigation keys, gets `none`. -/
theorem try_into_char_domain :
    (∀ k : KeyCode, (try_into_char k).isSome = true ↔ k ∈ charKeys) ∧
    try_into_char KeyCode.F1 = none ∧ try_into_char KeyCode.F12 = none ∧
    try_into_char KeyCode.F24 = none ∧ try_into_char KeyCode.Escape = none ∧
    try_into_char KeyCode.LShift = none ∧ try_into_char KeyCode.LControl = none ∧
    try_into_char KeyCode.LAlt = none ∧ try_into_char KeyCode.Left = none ∧
    try_into_char KeyCode.Up = none ∧ try_into_char KeyCode.Home = none ∧
    try_into_char KeyCode.PageDown = none := by
  constructor
  · intro k
    cases k <;> decide
  · decide

/-- C9: every letter key code maps to its lowercase ASCII letter. -/
theorem letters_map_to_lowercase :
    try_into_char KeyCode.A = some 'a' ∧ try_into_char KeyCode.B = some 'b' ∧
    try_into_char KeyCode.C = some 'c' ∧ try_into_char KeyCode.D = some 'd' ∧
    try_into_char KeyCode.E = some 'e' ∧ try_into_char KeyCode.F = some 'f' ∧
    try_into_char KeyCode.G = some 'g' ∧ try_into_char KeyCode.H = some 'h' ∧
    try_into_char KeyCode.I = some 'i' ∧ try_into_char KeyCode.J = some 'j' ∧
    try_into_char KeyCode.K = some 'k' ∧ try_into_char KeyCode.L = some 'l' ∧
    try_into_char KeyCode.M = some 'm' ∧ try_into_char KeyCode.N = some 'n' ∧
    try_into_char KeyCode.O = some 'o' ∧ try_into_char KeyCode.P = some 'p' ∧
    try_into_char KeyCode.Q = some 'q' ∧ try_into_char KeyCode.R = some 'r' ∧
    try_into_char KeyCode.S = some 's' ∧ try_into_char KeyCode.T = some 't' ∧
    try_into_char KeyCode.U = some 'u' ∧ try_into_char KeyCode.V = some 'v' ∧
    try_into_char KeyCode.W = some 'w' ∧ try_into_char KeyCode.X = some 'x' ∧
    try_into_char KeyCode.Y = some 'y' ∧ try_into_char KeyCode.Z = some 'z' := by
  decide
